import Mathlib

/-!
Shallow embedding of the task-management dashboard's data layer
(`src/lib/data.ts` and its revised variant), the role-based assignment
filter of the assign/edit task pages, and the two email flows.

Firestore is modelled as an explicit list of documents; each data-layer
operation becomes a pure function from the incoming state (plus the
outcomes of external collaborator calls, passed in as explicit values)
to the resulting state and returned value.  Thrown JavaScript errors
become `Except.error`.
-/

namespace NetNex

/-- A user record, as in `src/lib/types.ts` (the fields the data layer and
the policy code read; `subdomain` is optional in the source). -/
structure User where
  id : String
  name : String
  email : String
  level : Nat
  domain : String
  subdomain : Option String
  deriving Repr, DecidableEq

/-- A comment record; `fileURL` is optional (present only on synthesized
file-attachment comments). -/
structure Comment where
  id : String
  userId : String
  text : String
  createdAt : String
  fileURL : Option String
  deriving Repr, DecidableEq

/-- A task document.  `createdAt` is the numeric timestamp the sort
comparator extracts with `getTime()`; `assigneeIds` is optional because the
code defensively reads it as `task.assigneeIds || []`. -/
structure Task where
  id : String
  title : String
  description : String
  assignerId : String
  assigneeIds : Option (List String)
  status : String
  createdAt : Nat
  deadline : String
  comments : List Comment
  progress : Nat
  summary : Option String
  deriving Repr, DecidableEq

/-- The partial-update record passed to `updateTask(taskId, data)`:
every field of `Partial<Task>` the callers actually pass. -/
structure TaskUpdate where
  title : Option String := none
  description : Option String := none
  assigneeIds : Option (List String) := none
  deadline : Option String := none
  progress : Option Nat := none
  status : Option String := none
  summary : Option String := none
  deriving Repr, DecidableEq

/-- An attachment supplied to `addTask` (name, MIME type, base64 data). -/
structure Attachment where
  name : String
  type : String
  data : String
  deriving Repr, DecidableEq

/-- The `TaskData` input of `addTask`. -/
structure TaskData where
  title : String
  description : String
  assignerId : String
  assigneeIds : List String
  deadline : String
  attachments : Option (List Attachment)
  deriving Repr, DecidableEq

/-- An activity-log record as written by `createLog`. -/
structure LogEntry where
  userId : String
  action : String
  taskId : String
  taskTitle : String
  timestamp : String
  deriving Repr, DecidableEq

/-- `createLog(user, action, task)`: the document appended to the `logs`
collection (the action verb is suffixed with " task"). -/
def mkLog (user : User) (action : String) (task : Task) (now : String) : LogEntry :=
  { userId := user.id
    action := action ++ " task"
    taskId := task.id
    taskTitle := task.title
    timestamp := now }

/-- Firestore `arrayUnion`: appends each element that is not already
present in the array (in argument order, later duplicates collapsed). -/
def arrayUnion (old : List Comment) : List Comment → List Comment
  | [] => old
  | c :: rest => arrayUnion (if c ∈ old then old else old ++ [c]) rest

/-- `getTask(id)`: direct lookup of a task document by id. -/
def getTask (store : List Task) (id : String) : Option Task :=
  store.find? (fun t => t.id == id)

/-- The visibility filter inside `getTasks`: levels 0-1 see every task,
everyone else sees a task iff they are its assigner or among its
assignees (a missing `assigneeIds` read as the empty list). -/
def visibleTasks (user : User) (allTasks : List Task) : List Task :=
  if user.level ≤ 1 then allTasks
  else allTasks.filter
    (fun task => decide (task.assignerId = user.id ∨ user.id ∈ task.assigneeIds.getD []))

/-- The comparator of the default sort in `getTasks`:
`(a, b) => b.createdAt - a.createdAt`, i.e. most recent first. -/
def byCreatedAtDesc (a b : Task) : Bool :=
  decide (b.createdAt ≤ a.createdAt)

/-- `getTasks(user)`: fetches the task collection (the fetch outcome is the
explicit `fetch` argument), applies the visibility filter, and sorts by
`createdAt` descending; any storage error degrades to the empty list. -/
def getTasks (user : User) (fetch : Except String (List Task)) : List Task :=
  match fetch with
  | .error _ => []
  | .ok allTasks => (visibleTasks user allTasks).mergeSort byCreatedAtDesc

/-- The assignable-user computation shared by `AssignTaskPage` and
`EditTaskPage` (`switch (user.level)` over the fetched user directory). -/
def assignableUsers (user : User) (users : List User) : List User :=
  if user.level = 0 ∨ user.level = 1 then
    users.filter (fun u => decide (u.id ≠ user.id))
  else if user.level = 2 then
    users.filter (fun u => decide (3 ≤ u.level))
  else if user.level = 3 then
    users.filter (fun u => decide (u.domain = user.domain ∧ user.level < u.level))
  else if user.level = 4 then
    users.filter (fun u =>
      decide (u.domain = user.domain ∧ u.subdomain = user.subdomain ∧ user.level < u.level))
  else []

/-- Merging a `Partial<Task>` into a stored task (Firestore `updateDoc`
merge semantics: present fields overwrite, absent fields are kept). -/
def applyUpdate (t : Task) (d : TaskUpdate) : Task :=
  { t with
    title := d.title.getD t.title
    description := d.description.getD t.description
    assigneeIds := match d.assigneeIds with | some ids => some ids | none => t.assigneeIds
    deadline := d.deadline.getD t.deadline
    progress := d.progress.getD t.progress
    status := d.status.getD t.status
    summary := match d.summary with | some s => some s | none => t.summary }

/-- Firestore `updateDoc(ref, f)` on the `tasks` collection: fails when no
document with the id exists, otherwise rewrites the matching document. -/
def updateDoc (store : List Task) (taskId : String) (f : Task → Task) :
    Except String (List Task) :=
  if store.any (fun t => t.id == taskId) then
    .ok (store.map (fun t => if t.id == taskId then f t else t))
  else
    .error "No document to update"

/-- Looks a user up in the fetched user directory, as `getUser` resolves an
id against the cached `getUsers()` list. -/
def findUserById (users : List User) (id : String) : Option User :=
  users.find? (fun u => u.id == id)

/-- Result of `updateTask` (revised `data.ts` variant): the new store, the
re-fetched task, the users the notification dispatcher attempted to email,
and the activity log. -/
structure UpdateResult where
  store : List Task
  result : Option Task
  notified : List User
  logs : List LogEntry
  deriving Repr, DecidableEq

/-- `updateTask(taskId, data)` from the revised `data.ts`: requires a
logged-in user, snapshots the original task, merges the partial fields,
re-fetches, logs, and — when `data.assigneeIds` is present and the original
task was fetched — notifies exactly the assignees in
`data.assigneeIds` that are not among the original ones (ids that do not
resolve to a user are skipped, and each send failure is caught). -/
def updateTask (store : List Task) (logs : List LogEntry) (users : List User)
    (loggedIn : Option User) (taskId : String) (data : TaskUpdate) (now : String) :
    Except String UpdateResult :=
  match loggedIn with
  | none => .error "User not authenticated."
  | some user =>
    let originalTask := getTask store taskId
    match updateDoc store taskId (fun t => applyUpdate t data) with
    | .error e => .error e
    | .ok store2 =>
      match getTask store2 taskId with
      | none => .ok { store := store2, result := none, notified := [], logs := logs }
      | some updatedTask =>
        let logs2 := logs ++ [mkLog user "updated" updatedTask now]
        match originalTask, data.assigneeIds with
        | some orig, some ids =>
          let originalAssignees := orig.assigneeIds.getD []
          let newAssignees := ids.filter (fun i => decide (i ∉ originalAssignees))
          let notified := newAssignees.filterMap (findUserById users)
          .ok { store := store2, result := some updatedTask, notified := notified, logs := logs2 }
        | _, _ =>
          .ok { store := store2, result := some updatedTask, notified := [], logs := logs2 }

/-- The comment-synthesis loop of `addTask` over the attachment list paired
with each upload's outcome (`Except.error` = the upload threw, caught and
logged; `Except.ok url` = the flow returned `{downloadURL: url}`).  A
comment is pushed only when `result.downloadURL` is truthy, with text
`"File uploaded: " ++ name`; `uuid k` supplies the fresh comment id of the
k-th iteration. -/
def mkAttachmentComments (uuid : Nat → String) (userId now : String) :
    List (Attachment × Except String String) → Nat → List Comment
  | [], _ => []
  | (a, r) :: rest, k =>
    match r with
    | .error _ => mkAttachmentComments uuid userId now rest (k + 1)
    | .ok url =>
      if url = "" then mkAttachmentComments uuid userId now rest (k + 1)
      else
        { id := uuid k, userId := userId, text := "File uploaded: " ++ a.name
          createdAt := now, fileURL := some url } :: mkAttachmentComments uuid userId now rest (k + 1)

/-- Result of `addTask`: the new store, the re-fetched created task, the
activity log, and the assignees the notification loop attempted to email. -/
structure AddResult where
  store : List Task
  created : Option Task
  logs : List LogEntry
  notified : List User
  deriving Repr, DecidableEq

/-- The `newTask` document `addTask` writes: the input's core fields plus
`createdAt = now`, empty comments, `progress = 0` and status "To Do". -/
def newTaskDoc (taskData : TaskData) (newTaskId : String) (nowMs : Nat) : Task :=
  { id := newTaskId
    title := taskData.title
    description := taskData.description
    assignerId := taskData.assignerId
    assigneeIds := some taskData.assigneeIds
    deadline := taskData.deadline
    createdAt := nowMs
    comments := []
    progress := 0
    status := "To Do"
    summary := none }

/-- `addTask(taskData)`: requires a logged-in user, writes the new task
document under the freshly generated `newTaskId`, then sequentially
uploads any attachments — each failure caught per file — and
`arrayUnion`s a file comment for each successful upload, then re-fetches
the task, logs, and notifies every resolvable assignee. -/
def addTask (store : List Task) (logs : List LogEntry) (users : List User)
    (loggedIn : Option User) (newTaskId : String) (taskData : TaskData)
    (nowMs : Nat) (now : String) (uuid : Nat → String)
    (uploadResults : List (Except String String)) : Except String AddResult :=
  match loggedIn with
  | none => .error "User not logged in"
  | some user =>
    let newTask : Task := newTaskDoc taskData newTaskId nowMs
    let store1 := store ++ [newTask]
    let atts := taskData.attachments.getD []
    let attachmentComments :=
      if atts.length > 0 then
        mkAttachmentComments uuid user.id now (atts.zip uploadResults) 0
      else []
    let store2 :=
      if attachmentComments.length > 0 then
        store1.map (fun t =>
          if t.id == newTaskId then { t with comments := arrayUnion t.comments attachmentComments }
          else t)
      else store1
    match getTask store2 newTaskId with
    | none => .ok { store := store2, created := none, logs := logs, notified := [] }
    | some createdTask =>
      .ok { store := store2
            created := some createdTask
            logs := logs ++ [mkLog user "created" createdTask now]
            notified := taskData.assigneeIds.filterMap (findUserById users) }

/-- The body of `deleteTask`'s `try` block: fetch the task (throwing
"Task not found." when absent), delete the document, append the log entry
snapshotting the fetched task's title. -/
def deleteTaskTry (store : List Task) (logs : List LogEntry) (user : User)
    (taskId : String) (now : String) :
    Except String Unit × List Task × List LogEntry :=
  match getTask store taskId with
  | none => (.error "Task not found.", store, logs)
  | some taskToDelete =>
    (.ok (), store.filter (fun t => !(t.id == taskId)),
      logs ++ [mkLog user "deleted" taskToDelete now])

/-- `deleteTask(taskId)`: requires a logged-in user; any error thrown inside
the `try` block (including the internal "Task not found.") is caught and
re-thrown as the generic `Error("Failed to delete task")`. -/
def deleteTask (store : List Task) (logs : List LogEntry) (loggedIn : Option User)
    (taskId : String) (now : String) :
    Except String Unit × List Task × List LogEntry :=
  match loggedIn with
  | none => (.error "User not authenticated.", store, logs)
  | some user =>
    match deleteTaskTry store logs user taskId now with
    | (.error _, s, l) => (.error "Failed to delete task", s, l)
    | (.ok _, s, l) => (.ok (), s, l)

/-- `addComment(taskId, text)`: requires a logged-in user, builds a comment
with a fresh id (`commentId`) and the current timestamp, persists it via
`updateDoc` with `arrayUnion`, re-fetches the task and logs
"commented on". -/
def addComment (store : List Task) (logs : List LogEntry) (loggedIn : Option User)
    (taskId text commentId now : String) :
    Except String (List Task × Option Task × List LogEntry) :=
  match loggedIn with
  | none => .error "User not logged in"
  | some user =>
    let newComment : Comment :=
      { id := commentId, userId := user.id, text := text, createdAt := now, fileURL := none }
    match updateDoc store taskId (fun t => { t with comments := arrayUnion t.comments [newComment] }) with
    | .error e => .error e
    | .ok store2 =>
      match getTask store2 taskId with
      | none => .ok (store2, none, logs)
      | some updatedTask => .ok (store2, some updatedTask, logs ++ [mkLog user "commented on" updatedTask now])

/-- The module-level `allUsersCache` of `data.ts`. -/
abbrev UsersCache := Option (List User)

/-- `getUsers()`: answers from the cache when populated; otherwise performs
the Firestore fetch (outcome passed explicitly), caching a successful
result and degrading to the empty list on error. -/
def getUsers (cache : UsersCache) (fetch : Except String (List User)) :
    List User × UsersCache :=
  match cache with
  | some users => (users, some users)
  | none =>
    match fetch with
    | .ok users => (users, some users)
    | .error _ => ([], none)

/-- `getUser(id)`: `none` for a null id; otherwise first checks the cache,
and only when the id is not found there falls through to `getUsers()`
(which itself answers from the cache when populated). -/
def getUser (cache : UsersCache) (fetch : Except String (List User))
    (id : Option String) : Option User × UsersCache :=
  match id with
  | none => (none, cache)
  | some i =>
    match cache with
    | some users =>
      match users.find? (fun u => u.id == i) with
      | some u => (some u, some users)
      | none =>
        let r := getUsers (some users) fetch
        (r.1.find? (fun u => u.id == i), r.2)
    | none =>
      let r := getUsers none fetch
      (r.1.find? (fun u => u.id == i), r.2)

/-- The input of both `sendEmail` flows. -/
structure SendEmailInput where
  «to» : String
  subject : String
  html : String
  deriving Repr, DecidableEq

/-- The Resend-based `sendEmailFlow`: with no `RESEND_API_KEY` the module
never constructed a client, so the flow logs and returns without sending;
with a client, a delivery failure is caught and only logged. -/
def sendEmailResend (configured : Bool) (_input : SendEmailInput)
    (deliver : Except String Unit) : Except String Unit :=
  if !configured then .ok ()
  else
    match deliver with
    | .ok _ => .ok ()
    | .error _ => .ok ()

/-- The Nodemailer/Gmail-SMTP `sendEmailFlow`: with no
`GMAIL_EMAIL`/`GMAIL_APP_PASSWORD` no transporter exists and the flow
throws "Email service is not configured."; a delivery failure is
re-thrown as "Failed to send email: ...". -/
def sendEmailNodemailer (configured : Bool) (_input : SendEmailInput)
    (deliver : Except String Unit) : Except String Unit :=
  if !configured then .error "Email service is not configured."
  else
    match deliver with
    | .ok _ => .ok ()
    | .error e => .error ("Failed to send email: " ++ e)

/-! ### Sample data used by the concrete witnesses and counterexamples -/

/-- A level-0 (Presidium) user. -/
def uPres : User :=
  { id := "u0", name := "Pat Lee", email := "pat@club.org", level := 0
    domain := "Executive", subdomain := none }

/-- A level-3 (Domain Director) user in the Technical domain. -/
def uDirector : User :=
  { id := "u3", name := "Dana Fox", email := "dana@club.org", level := 3
    domain := "Technical", subdomain := none }

/-- A level-4 member of the Technical domain. -/
def uMember : User :=
  { id := "u4", name := "Sam Roe", email := "sam@club.org", level := 4
    domain := "Technical", subdomain := some "Web" }

/-- A second level-4 member of the Technical domain. -/
def uMemberB : User :=
  { id := "u5", name := "Kim Vo", email := "kim@club.org", level := 4
    domain := "Technical", subdomain := some "Systems" }

/-- A level-5 member of the Corporate domain. -/
def uJunior : User :=
  { id := "u6", name := "Ash Kay", email := "ash@club.org", level := 5
    domain := "Corporate", subdomain := some "Outreach" }

/-- The sample user directory. -/
def sampleUsers : List User := [uPres, uDirector, uMember, uMemberB, uJunior]

/-- A task assigned by the director to one member. -/
def tAlpha : Task :=
  { id := "t1", title := "Prepare demo", description := "Prepare the web demo"
    assignerId := "u3", assigneeIds := some ["u4"], status := "To Do"
    createdAt := 100, deadline := "2025-02-01T00:00:00.000Z", comments := []
    progress := 0, summary := none }

/-- A task between other users, with a missing `assigneeIds` field. -/
def tBeta : Task :=
  { id := "t2", title := "Draft budget", description := "Draft the Q1 budget"
    assignerId := "u0", assigneeIds := none, status := "To Do"
    createdAt := 200, deadline := "2025-03-01T00:00:00.000Z", comments := []
    progress := 0, summary := none }

/-- The sample task store. -/
def sampleTasks : List Task := [tAlpha, tBeta]

/-- A task with two assignees, for the notification-delta scenario. -/
def tGamma : Task :=
  { id := "t3", title := "Plan event", description := "Plan the spring event"
    assignerId := "u3", assigneeIds := some ["u4", "u5"], status := "To Do"
    createdAt := 300, deadline := "2025-04-01T00:00:00.000Z", comments := []
    progress := 0, summary := none }

/-- A task with one existing comment, for the comment-append scenario. -/
def tDelta : Task :=
  { id := "t4", title := "Collect feedback", description := "Collect member feedback"
    assignerId := "u0", assigneeIds := some ["u4", "u6"], status := "In Progress"
    createdAt := 400, deadline := "2025-05-01T00:00:00.000Z"
    comments := [{ id := "c1", userId := "u4", text := "Started on this"
                   createdAt := "2025-01-05T00:00:00.000Z", fileURL := none }]
    progress := 40, summary := none }

/-- A concrete `TaskData` input with no attachments. -/
def sampleTaskData : TaskData :=
  { title := "Write recap", description := "Write the event recap post"
    assignerId := "u3", assigneeIds := ["u4"]
    deadline := "2025-05-01T00:00:00.000Z", attachments := none }

/-- A concrete `TaskData` input carrying two attachments. -/
def sampleTaskDataAtt : TaskData :=
  { title := "Design poster", description := "Design the event poster"
    assignerId := "u3", assigneeIds := ["u4"]
    deadline := "2025-06-01T00:00:00.000Z"
    attachments := some
      [{ name := "draft.png", type := "image/png", data := "data-a" },
       { name := "notes.pdf", type := "application/pdf", data := "data-b" }] }

/-- The uploads of `addTask` that succeed: the attachment/outcome pairs
whose upload returned a download URL, paired with that URL. -/
def successfulUploads (pairs : List (Attachment × Except String String)) :
    List (Attachment × String) :=
  pairs.filterMap (fun p =>
    match p.2 with
    | .ok url => some (p.1, url)
    | .error _ => none)

/-- A sample email input. -/
def sampleEmail : SendEmailInput :=
  { «to» := "sam@club.org", subject := "New Task Assigned: Prepare demo", html := "<p>hi</p>" }

/-! ### C9: fail-closed task listing -/

/-- C9: for every user, when the storage layer errors while fetching the
task collection, `getTasks` returns the empty sequence instead of
propagating the error. -/
theorem getTasks_storage_error (user : User) (err : String) :
    getTasks user (.error err) = [] := rfl

/-! ### C10: user-directory cache invariant -/

/-- C10: once the process-wide cache holds a user list `l`, `getUsers`
returns exactly `l` and leaves the cache untouched whatever the store
fetch would return (so it never re-fetches), and `getUser` answers by
looking the id up in `l`, again leaving the cache as it is; no data-layer
operation writes the cache except this initial population. -/
theorem usersCache_invariant (l : List User) (fetch : Except String (List User))
    (i : String) :
    getUsers (some l) fetch = (l, some l) ∧
    getUser (some l) fetch (some i) = (l.find? (fun u => u.id == i), some l) ∧
    getUser (some l) fetch none = (none, some l) := by
  refine ⟨rfl, ?_, rfl⟩
  unfold getUser
  cases h : l.find? (fun u => u.id == i) with
  | none => simp [getUsers, h]
  | some u => simp [h]

/-! ### C5: email degraded mode (corrected) -/

/-- C5, counterexample: with no SMTP credentials the Nodemailer-based
`sendEmailFlow` does not complete as a no-op — it throws
"Email service is not configured.", so the claim that `sendEmail` never
throws when configuration is absent is false for this implementation. -/
theorem sendEmail_unconfigured_nodemailer_throws :
    sendEmailNodemailer false sampleEmail (.ok ())
        = .error "Email service is not configured." ∧
    sendEmailNodemailer false sampleEmail (.ok ()) ≠ .ok () := by
  refine ⟨rfl, ?_⟩
  simp [sendEmailNodemailer]

/-- C5, amended: with configuration absent, the Resend-based
`sendEmailFlow` completes as a no-op with a logged warning for every input
and every would-be delivery outcome, while the alternative
Nodemailer/Gmail-SMTP implementation instead throws
"Email service is not configured.". -/
theorem sendEmail_unconfigured_spec (input : SendEmailInput)
    (deliver : Except String Unit) :
    sendEmailResend false input deliver = .ok () ∧
    sendEmailNodemailer false input deliver = .error "Email service is not configured." := by
  constructor <;> rfl

/-! ### C1: task visibility -/

/-- The comparator is transitive. -/
theorem byCreatedAtDesc_trans (a b c : Task) :
    byCreatedAtDesc a b = true → byCreatedAtDesc b c = true → byCreatedAtDesc a c = true := by
  simp only [byCreatedAtDesc, decide_eq_true_iff]
  omega

/-- The comparator is total. -/
theorem byCreatedAtDesc_total (a b : Task) :
    (byCreatedAtDesc a b || byCreatedAtDesc b a) = true := by
  simp only [byCreatedAtDesc, Bool.or_eq_true, decide_eq_true_iff]
  omega

/-- C1: a user at level ≤ 1 sees exactly the stored tasks; a user at
level > 1 sees a task iff they are its assigner or among its assignees
(a missing `assigneeIds` field read as empty); and in both cases the
result of `getTasks` is ordered by `createdAt` descending. -/
theorem getTasks_visibility (user : User) (tasks : List Task) :
    (user.level ≤ 1 → ∀ t, t ∈ getTasks user (.ok tasks) ↔ t ∈ tasks) ∧
    (1 < user.level →
      ∀ t, t ∈ getTasks user (.ok tasks) ↔
        t ∈ tasks ∧ (user.id = t.assignerId ∨ user.id ∈ t.assigneeIds.getD [])) ∧
    (getTasks user (.ok tasks)).Pairwise (fun a b => b.createdAt ≤ a.createdAt) := by
  refine ⟨?_, ?_, ?_⟩
  · intro hle t
    simp [getTasks, visibleTasks, hle, List.mem_mergeSort]
  · intro hgt t
    have hnle : ¬ user.level ≤ 1 := by omega
    simp only [getTasks, List.mem_mergeSort, visibleTasks, if_neg hnle, List.mem_filter,
      decide_eq_true_iff]
    constructor
    · rintro ⟨hmem, h | h⟩
      · exact ⟨hmem, Or.inl h.symm⟩
      · exact ⟨hmem, Or.inr h⟩
    · rintro ⟨hmem, h | h⟩
      · exact ⟨hmem, Or.inl h.symm⟩
      · exact ⟨hmem, Or.inr h⟩
  · have := List.sorted_mergeSort byCreatedAtDesc_trans byCreatedAtDesc_total
      (visibleTasks user tasks)
    exact (this.imp (fun h => by simpa [byCreatedAtDesc] using h))

/-- C1 witness: at a concrete level-4 user and concrete store, the
visibility equivalence of `getTasks_visibility` holds for a concrete
task. -/
theorem getTasks_visibility_witness :
    tAlpha ∈ getTasks uMember (.ok sampleTasks) ↔
      tAlpha ∈ sampleTasks ∧
        (uMember.id = tAlpha.assignerId ∨ uMember.id ∈ tAlpha.assigneeIds.getD []) :=
  (getTasks_visibility uMember sampleTasks).2.1 (by decide) tAlpha

/-! ### C2: assignable targets -/

/-- C2: by the actor's level, the assignable-user computation of the
assign/edit pages yields: levels 0-1, every directory user with an id
other than the actor's; level 2, exactly the users with level ≥ 3;
level 3, exactly the users sharing the actor's domain with strictly
greater level; level 4, exactly the users sharing the actor's domain and
subdomain with strictly greater level; level ≥ 5, nothing; and at every
level the actor themself is excluded from the result. -/
theorem assignableTargets_spec (actor : User) (users : List User) :
    (actor.level ≤ 1 →
      ∀ u, u ∈ assignableUsers actor users ↔ u ∈ users ∧ u.id ≠ actor.id) ∧
    (actor.level = 2 →
      ∀ u, u ∈ assignableUsers actor users ↔ u ∈ users ∧ 3 ≤ u.level) ∧
    (actor.level = 3 →
      ∀ u, u ∈ assignableUsers actor users ↔
        u ∈ users ∧ u.domain = actor.domain ∧ actor.level < u.level) ∧
    (actor.level = 4 →
      ∀ u, u ∈ assignableUsers actor users ↔
        u ∈ users ∧ u.domain = actor.domain ∧ u.subdomain = actor.subdomain ∧
          actor.level < u.level) ∧
    (5 ≤ actor.level → assignableUsers actor users = []) ∧
    actor ∉ assignableUsers actor users := by
  refine ⟨?_, ?_, ?_, ?_, ?_, ?_⟩
  · intro hle u
    have h01 : actor.level = 0 ∨ actor.level = 1 := by omega
    simp [assignableUsers, h01, List.mem_filter]
  · intro h2 u
    simp [assignableUsers, h2, List.mem_filter]
  · intro h3 u
    simp [assignableUsers, h3, List.mem_filter]
  · intro h4 u
    simp [assignableUsers, h4, List.mem_filter]
  · intro h5
    have h0 : ¬ (actor.level = 0 ∨ actor.level = 1) := by omega
    have h2 : actor.level ≠ 2 := by omega
    have h3 : actor.level ≠ 3 := by omega
    have h4 : actor.level ≠ 4 := by omega
    simp [assignableUsers, h0, h2, h3, h4]
  · intro hmem
    have h01 : actor.level = 0 ∨ actor.level = 1 ∨ actor.level = 2 ∨ actor.level = 3 ∨
        actor.level = 4 ∨ 5 ≤ actor.level := by omega
    rcases h01 with h | h | h | h | h | h
    · simp [assignableUsers, h, List.mem_filter] at hmem
    · simp [assignableUsers, h, List.mem_filter] at hmem
    · simp [assignableUsers, h, List.mem_filter] at hmem
    · simp [assignableUsers, h, List.mem_filter] at hmem
    · simp [assignableUsers, h, List.mem_filter] at hmem
    · have h0 : ¬ (actor.level = 0 ∨ actor.level = 1) := by omega
      have h2 : actor.level ≠ 2 := by omega
      have h3 : actor.level ≠ 3 := by omega
      have h4 : actor.level ≠ 4 := by omega
      simp [assignableUsers, h0, h2, h3, h4] at hmem

/-- C2 witness: for the concrete level-3 director and the sample
directory, membership in the assignable set is exactly "same domain and
strictly greater level", checked on a concrete candidate. -/
theorem assignableTargets_spec_witness :
    uMember ∈ assignableUsers uDirector sampleUsers ↔
      uMember ∈ sampleUsers ∧ uMember.domain = uDirector.domain ∧
        uDirector.level < uMember.level :=
  (assignableTargets_spec uDirector sampleUsers).2.2.1 (by decide) uMember

/-! ### C3: update-notification delta -/

/-- Rewriting every document with a given id through an id-preserving
function commutes with `getTask`. -/
theorem getTask_map_ite (store : List Task) (taskId : String) (g : Task → Task)
    (hg : ∀ t, (g t).id = t.id) :
    getTask (store.map (fun t => if t.id == taskId then g t else t)) taskId
      = (getTask store taskId).map g := by
  induction store with
  | nil => rfl
  | cons hd tl ih =>
    by_cases hh : hd.id = taskId
    · have hbeq : (hd.id == taskId) = true := by simpa using hh
      have hgbeq : ((g hd).id == taskId) = true := by simpa [hg hd] using hh
      simp only [getTask, List.map_cons, hbeq, if_true]
      have e1 : List.find? (fun t : Task => t.id == taskId)
          (g hd :: tl.map (fun t => if t.id == taskId then g t else t)) = some (g hd) :=
        List.find?_cons_of_pos _ hgbeq
      have e2 : List.find? (fun t : Task => t.id == taskId) (hd :: tl) = some hd :=
        List.find?_cons_of_pos _ hbeq
      rw [e1, e2]
      rfl
    · have hbeq : (hd.id == taskId) = false := by simpa using hh
      simp only [getTask, List.map_cons, hbeq, Bool.false_eq_true, if_false]
      rw [List.find?_cons_of_neg _ (by simp [hbeq]), List.find?_cons_of_neg _ (by simp [hbeq])]
      exact ih

/-- `applyUpdate` never changes the document id. -/
theorem applyUpdate_id (t : Task) (d : TaskUpdate) : (applyUpdate t d).id = t.id := rfl

/-- A successful directory lookup returns a user bearing the looked-up id. -/
theorem findUserById_id (users : List User) (i : String) (u : User)
    (h : findUserById users i = some u) : u.id = i := by
  have := List.find?_some h
  simpa using this

/-- Mapping `User.id` over the resolutions of a list of ids that all
resolve gives back that list of ids. -/
theorem map_id_filterMap_find (users : List User) (l : List String)
    (h : ∀ i ∈ l, (findUserById users i).isSome) :
    (l.filterMap (findUserById users)).map User.id = l := by
  induction l with
  | nil => rfl
  | cons hd tl ih =>
    obtain ⟨u, hu⟩ := Option.isSome_iff_exists.mp (h hd (by simp))
    rw [List.filterMap_cons, hu]
    simp only [List.map_cons, findUserById_id users hd u hu]
    exact congrArg _ (ih fun i hi => h i (by simp [hi]))

/-- C3: an `updateTask` on an existing task whose partial fields include
`assigneeIds` succeeds, and the notification dispatcher is invoked for
exactly the ids in the new list that are not among the original
assignees (assuming each genuinely new id resolves in the directory);
in particular nobody already among the original assignees is notified. -/
theorem updateTask_notification_delta (store : List Task) (logs : List LogEntry)
    (users : List User) (user : User) (taskId : String) (data : TaskUpdate)
    (now : String) (orig : Task) (ids : List String)
    (horig : getTask store taskId = some orig)
    (hids : data.assigneeIds = some ids)
    (hres : ∀ i ∈ ids, i ∉ orig.assigneeIds.getD [] → (findUserById users i).isSome) :
    ∃ res, updateTask store logs users (some user) taskId data now = .ok res ∧
      res.notified.map User.id
        = ids.filter (fun i => decide (i ∉ orig.assigneeIds.getD [])) ∧
      ∀ u ∈ res.notified, u.id ∉ orig.assigneeIds.getD [] ∧ u.id ∈ ids := by
  have horig' : List.find? (fun t : Task => t.id == taskId) store = some orig := horig
  have hpred := List.find?_some (p := fun t : Task => t.id == taskId) (a := orig)
    (l := store) horig'
  have hany : store.any (fun t => t.id == taskId) = true :=
    List.any_eq_true.mpr ⟨orig, List.mem_of_find?_eq_some horig', hpred⟩
  have hupd : updateDoc store taskId (fun t => applyUpdate t data)
      = .ok (store.map (fun t => if t.id == taskId then applyUpdate t data else t)) := by
    simp [updateDoc, hany]
  have hget2 : getTask (store.map (fun t => if t.id == taskId then applyUpdate t data else t))
      taskId = some (applyUpdate orig data) := by
    rw [getTask_map_ite store taskId _ (fun t => applyUpdate_id t data), horig]
    rfl
  refine ⟨{ store := store.map (fun t => if t.id == taskId then applyUpdate t data else t)
            result := some (applyUpdate orig data)
            notified := (ids.filter (fun i => decide (i ∉ orig.assigneeIds.getD []))).filterMap
              (findUserById users)
            logs := logs ++ [mkLog user "updated" (applyUpdate orig data) now] }, ?_, ?_, ?_⟩
  · unfold updateTask
    rw [hupd]
    simp only [horig, hids, hget2]
  · exact map_id_filterMap_find users _
      (fun i hi => by
        rw [List.mem_filter] at hi
        exact hres i hi.1 (by simpa using hi.2))
  · intro u hu
    simp only [List.mem_filterMap] at hu
    obtain ⟨i, hi, hfind⟩ := hu
    rw [List.mem_filter] at hi
    have hid := findUserById_id users i u hfind
    exact ⟨by rw [hid]; simpa using hi.2, by rw [hid]; exact hi.1⟩

/-- C3 witness: updating `assigneeIds` from `["u4","u5"]` to
`["u4","u5","u6"]` notifies exactly `["u6"]`. -/
theorem updateTask_notification_delta_witness :
    ∃ res, updateTask [tGamma] [] sampleUsers (some uDirector) "t3"
          { assigneeIds := some ["u4", "u5", "u6"] } "2025-01-02T00:00:00.000Z"
        = .ok res ∧
      res.notified.map User.id
        = (["u4", "u5", "u6"].filter (fun i => decide (i ∉ tGamma.assigneeIds.getD []))) ∧
      ∀ u ∈ res.notified, u.id ∉ tGamma.assigneeIds.getD [] ∧ u.id ∈ ["u4", "u5", "u6"] :=
  updateTask_notification_delta [tGamma] [] sampleUsers uDirector "t3"
    { assigneeIds := some ["u4", "u5", "u6"] } "2025-01-02T00:00:00.000Z" tGamma
    ["u4", "u5", "u6"] (by decide) rfl (by decide)

/-! ### C4: create/read round-trip -/

/-- Looking up a freshly generated id after appending the new document
finds exactly that document. -/
theorem getTask_append_fresh (store : List Task) (t0 : Task) (id : String)
    (hfresh : ∀ t ∈ store, t.id ≠ id) (h0 : t0.id = id) :
    getTask (store ++ [t0]) id = some t0 := by
  unfold getTask
  induction store with
  | nil =>
    have hb : ((fun t : Task => t.id == id) t0) = true := by simpa using h0
    rw [List.nil_append]
    exact List.find?_cons_of_pos (p := fun t : Task => t.id == id) (a := t0) _ hb
  | cons hd tl ih =>
    have hb : ¬ ((fun t : Task => t.id == id) hd = true) := by
      simpa using hfresh hd (by simp)
    rw [List.cons_append, List.find?_cons_of_neg (p := fun t : Task => t.id == id) (a := hd) _ hb]
    exact ih fun t ht => hfresh t (by simp [ht])

/-- C4: with no attachments supplied, `addTask` followed by `getTask` on
the freshly generated id returns a task whose title, description,
assigneeIds and deadline equal the input's, with progress 0, status
"To Do" and an empty comment sequence. -/
theorem addTask_getTask_roundtrip (store : List Task) (logs : List LogEntry)
    (users : List User) (user : User) (newTaskId : String) (taskData : TaskData)
    (nowMs : Nat) (now : String) (uuid : Nat → String)
    (uploadResults : List (Except String String))
    (hfresh : ∀ t ∈ store, t.id ≠ newTaskId)
    (hatt : taskData.attachments.getD [] = []) :
    ∃ res ct,
      addTask store logs users (some user) newTaskId taskData nowMs now uuid uploadResults
          = .ok res ∧
      getTask res.store newTaskId = some ct ∧ res.created = some ct ∧
      ct.title = taskData.title ∧ ct.description = taskData.description ∧
      ct.assigneeIds = some taskData.assigneeIds ∧ ct.deadline = taskData.deadline ∧
      ct.progress = 0 ∧ ct.status = "To Do" ∧ ct.comments = [] := by
  have hg : getTask (store ++ [newTaskDoc taskData newTaskId nowMs]) newTaskId
      = some (newTaskDoc taskData newTaskId nowMs) :=
    getTask_append_fresh store _ newTaskId hfresh rfl
  refine ⟨{ store := store ++ [newTaskDoc taskData newTaskId nowMs]
            created := some (newTaskDoc taskData newTaskId nowMs)
            logs := logs ++ [mkLog user "created" (newTaskDoc taskData newTaskId nowMs) now]
            notified := taskData.assigneeIds.filterMap (findUserById users) },
          newTaskDoc taskData newTaskId nowMs, ?_, hg, rfl, rfl, rfl, rfl, rfl, rfl, rfl, rfl⟩
  unfold addTask
  simp only [hatt, List.length_nil, gt_iff_lt, lt_self_iff_false, if_false, hg]

/-- C4 witness: creating a concrete attachment-free task in the sample
store and reading it back yields the input's fields with progress 0,
status "To Do" and no comments. -/
theorem addTask_getTask_roundtrip_witness :
    ∃ res ct,
      addTask sampleTasks [] sampleUsers (some uDirector) "t9" sampleTaskData 500
          "2025-01-03T00:00:00.000Z" (fun n => toString n) [] = .ok res ∧
      getTask res.store "t9" = some ct ∧ res.created = some ct ∧
      ct.title = sampleTaskData.title ∧ ct.description = sampleTaskData.description ∧
      ct.assigneeIds = some sampleTaskData.assigneeIds ∧
      ct.deadline = sampleTaskData.deadline ∧
      ct.progress = 0 ∧ ct.status = "To Do" ∧ ct.comments = [] :=
  addTask_getTask_roundtrip sampleTasks [] sampleUsers uDirector "t9" sampleTaskData 500
    "2025-01-03T00:00:00.000Z" (fun n => toString n) [] (by decide) rfl

/-! ### C7: attachment partial-failure isolation -/

/-- `arrayUnion` on fresh, pairwise-distinct elements is a plain append. -/
theorem arrayUnion_eq_append (cs : List Comment) :
    ∀ old, cs.Nodup → (∀ c ∈ cs, c ∉ old) → arrayUnion old cs = old ++ cs := by
  induction cs with
  | nil => intro old _ _; simp [arrayUnion]
  | cons c rest ih =>
    intro old hnd hdisj
    have hcnot : c ∉ old := hdisj c (by simp)
    rw [arrayUnion, if_neg hcnot]
    rw [ih (old ++ [c]) (List.nodup_cons.mp hnd).2 ?_]
    · simp
    · intro x hx hmem
      rcases List.mem_append.mp hmem with h | h
      · exact hdisj x (List.mem_cons_of_mem _ hx) h
      · have hxc : x = c := by simpa using h
        exact (List.nodup_cons.mp hnd).1 (hxc ▸ hx)

/-- Every comment synthesized from position `k` onward carries a uuid of
index at least `k`. -/
theorem mkAttachmentComments_mem_id (uuid : Nat → String) (userId now : String) :
    ∀ (pairs : List (Attachment × Except String String)) (k : Nat) (c : Comment),
      c ∈ mkAttachmentComments uuid userId now pairs k → ∃ m, k ≤ m ∧ c.id = uuid m := by
  intro pairs
  induction pairs with
  | nil => intro k c h; simp [mkAttachmentComments] at h
  | cons p rest ih =>
    intro k c h
    obtain ⟨a, r⟩ := p
    match r with
    | .error e =>
      simp only [mkAttachmentComments] at h
      obtain ⟨m, hm, hc⟩ := ih (k + 1) c h
      exact ⟨m, by omega, hc⟩
    | .ok url =>
      simp only [mkAttachmentComments] at h
      by_cases hu : url = ""
      · rw [if_pos hu] at h
        obtain ⟨m, hm, hc⟩ := ih (k + 1) c h
        exact ⟨m, by omega, hc⟩
      · rw [if_neg hu] at h
        rcases List.mem_cons.mp h with h | h
        · exact ⟨k, le_refl _, by rw [h]⟩
        · obtain ⟨m, hm, hc⟩ := ih (k + 1) c h
          exact ⟨m, by omega, hc⟩

/-- With an injective uuid source, the synthesized comments are pairwise
distinct. -/
theorem mkAttachmentComments_nodup (uuid : Nat → String) (userId now : String)
    (huuid : ∀ i j, uuid i = uuid j → i = j) :
    ∀ (pairs : List (Attachment × Except String String)) (k : Nat),
      (mkAttachmentComments uuid userId now pairs k).Nodup := by
  intro pairs
  induction pairs with
  | nil => intro k; simp [mkAttachmentComments]
  | cons p rest ih =>
    intro k
    obtain ⟨a, r⟩ := p
    match r with
    | .error e =>
      simpa only [mkAttachmentComments] using ih (k + 1)
    | .ok url =>
      by_cases hu : url = ""
      · simpa only [mkAttachmentComments, if_pos hu] using ih (k + 1)
      · simp only [mkAttachmentComments, if_neg hu]
        refine List.nodup_cons.mpr ⟨?_, ih (k + 1)⟩
        intro hmem
        obtain ⟨m, hm, hc⟩ := mkAttachmentComments_mem_id uuid userId now rest (k + 1) _ hmem
        have := huuid k m (by simpa using hc)
        omega

/-- The text/fileURL projection of the synthesized comments is exactly one
file-marker entry per successful upload, in order (assuming successful
uploads return nonempty URLs, as the upload flow's schema guarantees). -/
theorem mkAttachmentComments_map (uuid : Nat → String) (userId now : String) :
    ∀ (pairs : List (Attachment × Except String String)) (k : Nat),
      (∀ p ∈ pairs, ∀ u, p.2 = Except.ok u → u ≠ "") →
      (mkAttachmentComments uuid userId now pairs k).map (fun c => (c.text, c.fileURL))
        = (successfulUploads pairs).map
            (fun p => ("File uploaded: " ++ p.1.name, some p.2)) := by
  intro pairs
  induction pairs with
  | nil => intro k _; rfl
  | cons p rest ih =>
    intro k hurl
    obtain ⟨a, r⟩ := p
    match r with
    | .error e =>
      simp only [mkAttachmentComments, successfulUploads, List.filterMap_cons]
      exact ih (k + 1) fun q hq => hurl q (List.mem_cons_of_mem _ hq)
    | .ok url =>
      have hne : url ≠ "" := hurl (a, .ok url) (by simp) url rfl
      simp only [mkAttachmentComments, if_neg hne, successfulUploads, List.filterMap_cons,
        List.map_cons]
      exact congrArg _ (ih (k + 1) fun q hq => hurl q (List.mem_cons_of_mem _ hq))

/-- C7: during `addTask` with attachments, per-file upload failures are
caught and do not abort the remaining uploads or the task creation: the
task is persisted with the input's core fields whatever the upload
outcomes (in particular when every upload fails), and its comment
sequence carries exactly one synthesized comment per successful upload —
the file-marker text "File uploaded: " followed by the attachment name,
with the returned download URL — in upload order. -/
theorem addTask_attachment_partial_failure (store : List Task) (logs : List LogEntry)
    (users : List User) (user : User) (newTaskId : String) (taskData : TaskData)
    (nowMs : Nat) (now : String) (uuid : Nat → String)
    (uploadResults : List (Except String String))
    (hfresh : ∀ t ∈ store, t.id ≠ newTaskId)
    (huuid : ∀ i j, uuid i = uuid j → i = j)
    (hurl : ∀ p ∈ (taskData.attachments.getD []).zip uploadResults,
      ∀ u, p.2 = Except.ok u → u ≠ "") :
    ∃ res ct,
      addTask store logs users (some user) newTaskId taskData nowMs now uuid uploadResults
          = .ok res ∧
      getTask res.store newTaskId = some ct ∧ res.created = some ct ∧
      ct.title = taskData.title ∧ ct.description = taskData.description ∧
      ct.assigneeIds = some taskData.assigneeIds ∧ ct.deadline = taskData.deadline ∧
      ct.comments.map (fun c => (c.text, c.fileURL))
        = (successfulUploads ((taskData.attachments.getD []).zip uploadResults)).map
            (fun p => ("File uploaded: " ++ p.1.name, some p.2)) := by
  have hg1 : getTask (store ++ [newTaskDoc taskData newTaskId nowMs]) newTaskId
      = some (newTaskDoc taskData newTaskId nowMs) :=
    getTask_append_fresh store _ newTaskId hfresh rfl
  have hmap := mkAttachmentComments_map uuid user.id now
    ((taskData.attachments.getD []).zip uploadResults) 0 hurl
  by_cases hA : (taskData.attachments.getD []).length > 0
  · by_cases hB : (mkAttachmentComments uuid user.id now
        ((taskData.attachments.getD []).zip uploadResults) 0).length > 0
    · -- at least one comment synthesized: the store write goes through arrayUnion
      have hg2 : getTask ((store ++ [newTaskDoc taskData newTaskId nowMs]).map
          (fun t => if t.id == newTaskId then
            { t with comments := arrayUnion t.comments (mkAttachmentComments uuid user.id now
                ((taskData.attachments.getD []).zip uploadResults) 0) }
            else t)) newTaskId
          = some { newTaskDoc taskData newTaskId nowMs with
              comments := arrayUnion (newTaskDoc taskData newTaskId nowMs).comments
                (mkAttachmentComments uuid user.id now
                  ((taskData.attachments.getD []).zip uploadResults) 0) } := by
        rw [getTask_map_ite (store ++ [newTaskDoc taskData newTaskId nowMs]) newTaskId
          (fun t => { t with comments := arrayUnion t.comments (mkAttachmentComments uuid
            user.id now ((taskData.attachments.getD []).zip uploadResults) 0) })
          (fun t => rfl), hg1]
        rfl
      have hau : arrayUnion (newTaskDoc taskData newTaskId nowMs).comments
          (mkAttachmentComments uuid user.id now
            ((taskData.attachments.getD []).zip uploadResults) 0)
          = mkAttachmentComments uuid user.id now
              ((taskData.attachments.getD []).zip uploadResults) 0 := by
        have := arrayUnion_eq_append
          (mkAttachmentComments uuid user.id now
            ((taskData.attachments.getD []).zip uploadResults) 0) []
          (mkAttachmentComments_nodup uuid user.id now huuid _ 0)
          (fun c _ h => by simp at h)
        simpa using this
      refine ⟨{ store := (store ++ [newTaskDoc taskData newTaskId nowMs]).map
                  (fun t => if t.id == newTaskId then
                    { t with comments := arrayUnion t.comments (mkAttachmentComments uuid
                      user.id now ((taskData.attachments.getD []).zip uploadResults) 0) }
                    else t)
                created := some { newTaskDoc taskData newTaskId nowMs with
                  comments := arrayUnion (newTaskDoc taskData newTaskId nowMs).comments
                    (mkAttachmentComments uuid user.id now
                      ((taskData.attachments.getD []).zip uploadResults) 0) }
                logs := logs ++ [mkLog user "created"
                  { newTaskDoc taskData newTaskId nowMs with
                    comments := arrayUnion (newTaskDoc taskData newTaskId nowMs).comments
                      (mkAttachmentComments uuid user.id now
                        ((taskData.attachments.getD []).zip uploadResults) 0) } now]
                notified := taskData.assigneeIds.filterMap (findUserById users) },
              { newTaskDoc taskData newTaskId nowMs with
                comments := arrayUnion (newTaskDoc taskData newTaskId nowMs).comments
                  (mkAttachmentComments uuid user.id now
                    ((taskData.attachments.getD []).zip uploadResults) 0) },
              ?_, hg2, rfl, rfl, rfl, rfl, rfl, ?_⟩
      · unfold addTask
        simp only [if_pos hA, if_pos hB, hg2]
      · rw [hau]
        exact hmap
    · -- no comment synthesized (e.g. every upload failed): store untouched
      have hcs : mkAttachmentComments uuid user.id now
          ((taskData.attachments.getD []).zip uploadResults) 0 = [] := by
        simpa using List.length_eq_zero.mp (by omega)
      refine ⟨{ store := store ++ [newTaskDoc taskData newTaskId nowMs]
                created := some (newTaskDoc taskData newTaskId nowMs)
                logs := logs ++ [mkLog user "created" (newTaskDoc taskData newTaskId nowMs) now]
                notified := taskData.assigneeIds.filterMap (findUserById users) },
              newTaskDoc taskData newTaskId nowMs,
              ?_, hg1, rfl, rfl, rfl, rfl, rfl, ?_⟩
      · unfold addTask
        simp only [if_pos hA, if_neg hB, hg1]
      · rw [← hmap, hcs]
        rfl
  · -- no attachments at all
    have hatts : taskData.attachments.getD [] = [] := List.length_eq_zero.mp (by omega)
    have hcs : mkAttachmentComments uuid user.id now
        ((taskData.attachments.getD []).zip uploadResults) 0 = [] := by
      rw [hatts]; rfl
    refine ⟨{ store := store ++ [newTaskDoc taskData newTaskId nowMs]
              created := some (newTaskDoc taskData newTaskId nowMs)
              logs := logs ++ [mkLog user "created" (newTaskDoc taskData newTaskId nowMs) now]
              notified := taskData.assigneeIds.filterMap (findUserById users) },
            newTaskDoc taskData newTaskId nowMs,
            ?_, hg1, rfl, rfl, rfl, rfl, rfl, ?_⟩
    · unfold addTask
      simp only [if_neg hA, List.length_nil, gt_iff_lt, lt_self_iff_false, if_false, hg1]
    · rw [← hmap, hcs]
      rfl

/-- C7 witness: creating a task with two attachments whose uploads both
fail still persists the task, with no file comment synthesized. -/
theorem addTask_attachment_partial_failure_witness :
    ∃ res ct,
      addTask sampleTasks [] sampleUsers (some uDirector) "t10" sampleTaskDataAtt 600
          "2025-01-04T00:00:00.000Z" (fun n => String.mk (List.replicate n 'a'))
          [.error "network down", .error "storage unavailable"] = .ok res ∧
      getTask res.store "t10" = some ct ∧ res.created = some ct ∧
      ct.title = sampleTaskDataAtt.title ∧ ct.description = sampleTaskDataAtt.description ∧
      ct.assigneeIds = some sampleTaskDataAtt.assigneeIds ∧
      ct.deadline = sampleTaskDataAtt.deadline ∧
      ct.comments.map (fun c => (c.text, c.fileURL))
        = (successfulUploads ((sampleTaskDataAtt.attachments.getD []).zip
              [.error "network down", .error "storage unavailable"])).map
            (fun p => ("File uploaded: " ++ p.1.name, some p.2)) :=
  addTask_attachment_partial_failure sampleTasks [] sampleUsers uDirector "t10"
    sampleTaskDataAtt 600 "2025-01-04T00:00:00.000Z"
    (fun n => String.mk (List.replicate n 'a'))
    [.error "network down", .error "storage unavailable"]
    (by decide)
    (by
      intro i j h
      have h2 : List.replicate i 'a' = List.replicate j 'a' := by
        simpa using congrArg String.data h
      simpa using congrArg List.length h2)
    (by
      intro p hp u h
      simp only [sampleTaskDataAtt, Option.getD_some, List.zip_cons_cons, List.zip_nil_right,
        List.mem_cons, List.not_mem_nil, or_false] at hp
      rcases hp with h1 | h1 <;> subst h1 <;> simp at h)

/-! ### C6: delete of a missing task (corrected) -/

/-- C6, counterexample: deleting a nonexistent task id with a logged-in
user fails with the generic "Failed to delete task" error — the internal
"Task not found." error is caught by the surrounding catch block and is
not what the caller observes, so the failure surfaced to the caller is
not the NotFound-class error the claim describes. -/
theorem deleteTask_missing_generic_error :
    (deleteTask [] [] (some uDirector) "t-missing" "2025-01-06T00:00:00.000Z").1
        = .error "Failed to delete task" ∧
    (deleteTask [] [] (some uDirector) "t-missing" "2025-01-06T00:00:00.000Z").1
        ≠ .error "Task not found." := by
  refine ⟨rfl, ?_⟩
  intro h
  rw [show (deleteTask [] [] (some uDirector) "t-missing" "2025-01-06T00:00:00.000Z").1
      = (Except.error "Failed to delete task" : Except String Unit) from rfl] at h
  simp at h

/-- C6, amended: deleting a missing id with a logged-in user raises a
failure — the internal "Task not found." error, re-surfaced by the catch
block as the generic "Failed to delete task" — rather than silently
succeeding, and it removes no record and writes no activity-log entry;
deleting an existing task removes it and appends a log entry whose
`taskTitle` snapshots the fetched task's title before the record is
removed. -/
theorem deleteTask_spec (store : List Task) (logs : List LogEntry) (user : User)
    (taskId now : String) :
    (getTask store taskId = none →
      deleteTask store logs (some user) taskId now
        = (.error "Failed to delete task", store, logs)) ∧
    (∀ t, getTask store taskId = some t →
      deleteTask store logs (some user) taskId now
        = (.ok (), store.filter (fun x => !(x.id == taskId)),
           logs ++ [{ userId := user.id, action := "deleted task", taskId := t.id
                      taskTitle := t.title, timestamp := now }])) := by
  constructor
  · intro hnone
    unfold deleteTask deleteTaskTry
    rw [hnone]
  · intro t ht
    unfold deleteTask deleteTaskTry
    rw [ht]
    rfl

/-- C6 witness: in a concrete store, deleting a missing id fails
generically and leaves store and logs untouched, and deleting an
existing task snapshots its title in the log. -/
theorem deleteTask_spec_witness :
    (deleteTask sampleTasks [] (some uDirector) "t-missing" "2025-01-06T00:00:00.000Z"
        = (.error "Failed to delete task", sampleTasks, [])) ∧
    (deleteTask sampleTasks [] (some uDirector) "t1" "2025-01-06T00:00:00.000Z"
        = (.ok (), sampleTasks.filter (fun x => !(x.id == "t1")),
           [{ userId := uDirector.id, action := "deleted task", taskId := tAlpha.id
              taskTitle := tAlpha.title, timestamp := "2025-01-06T00:00:00.000Z" }])) :=
  ⟨(deleteTask_spec sampleTasks [] uDirector "t-missing" "2025-01-06T00:00:00.000Z").1
      (by decide),
   (deleteTask_spec sampleTasks [] uDirector "t1" "2025-01-06T00:00:00.000Z").2 tAlpha
      (by decide)⟩

/-! ### C8: comment append frame property -/

/-- C8: `addComment` on an existing task with a logged-in user appends
exactly one new comment — the fresh id, the actor as author, the given
text, the current timestamp — at the end of that task's comment
sequence, leaves every other field of the task unchanged, and leaves
every other task in the store untouched. -/
theorem addComment_frame (store : List Task) (logs : List LogEntry) (user : User)
    (taskId text commentId now : String) (t : Task)
    (ht : getTask store taskId = some t)
    (hfresh : ∀ c ∈ t.comments, c.id ≠ commentId) :
    ∃ store2 upd logs2,
      addComment store logs (some user) taskId text commentId now
          = .ok (store2, some upd, logs2) ∧
      upd.comments = t.comments
        ++ [{ id := commentId, userId := user.id, text := text, createdAt := now, fileURL := none }] ∧
      upd.title = t.title ∧ upd.description = t.description ∧
      upd.assignerId = t.assignerId ∧ upd.assigneeIds = t.assigneeIds ∧
      upd.deadline = t.deadline ∧ upd.progress = t.progress ∧
      upd.status = t.status ∧ upd.createdAt = t.createdAt ∧ upd.summary = t.summary ∧
      logs2 = logs ++ [mkLog user "commented on" upd now] ∧
      (∀ x ∈ store, x.id ≠ taskId → x ∈ store2) := by
  have ht' : List.find? (fun x : Task => x.id == taskId) store = some t := ht
  have hany : store.any (fun x => x.id == taskId) = true :=
    List.any_eq_true.mpr ⟨t, List.mem_of_find?_eq_some ht',
      List.find?_some (p := fun x : Task => x.id == taskId) (a := t) (l := store) ht'⟩
  have hnotmem : ({ id := commentId, userId := user.id, text := text, createdAt := now, fileURL := none } : Comment) ∉ t.comments := by
    intro hmem
    exact hfresh _ hmem rfl
  have hau : arrayUnion t.comments
      [{ id := commentId, userId := user.id, text := text, createdAt := now, fileURL := none }]
      = t.comments ++ [{ id := commentId, userId := user.id, text := text, createdAt := now, fileURL := none }] :=
    arrayUnion_eq_append _ t.comments (by simp) (by simpa using hnotmem)
  have hget2 : getTask (store.map (fun x => if x.id == taskId then
      { x with comments := arrayUnion x.comments [{ id := commentId, userId := user.id, text := text, createdAt := now, fileURL := none }] } else x)) taskId
      = some { t with comments := arrayUnion t.comments [{ id := commentId, userId := user.id, text := text, createdAt := now, fileURL := none }] } := by
    rw [getTask_map_ite store taskId
      (fun x => { x with comments := arrayUnion x.comments [{ id := commentId, userId := user.id, text := text, createdAt := now, fileURL := none }] }) (fun x => rfl), ht]
    rfl
  refine ⟨store.map (fun x => if x.id == taskId then
      { x with comments := arrayUnion x.comments [{ id := commentId, userId := user.id, text := text, createdAt := now, fileURL := none }] } else x),
    { t with comments := arrayUnion t.comments [{ id := commentId, userId := user.id, text := text, createdAt := now, fileURL := none }] },
    _, ?_, ?_, rfl, rfl, rfl, rfl, rfl, rfl, rfl, rfl, rfl, rfl, ?_⟩
  · unfold addComment updateDoc
    simp only [hany, if_true, hget2]
  · exact hau
  · intro x hx hne
    refine List.mem_map.mpr ⟨x, hx, ?_⟩
    rw [if_neg (by simpa using hne)]

/-- C8 witness: posting a comment on the concrete task `tDelta` appends
exactly one comment after the existing one and changes nothing else. -/
theorem addComment_frame_witness :
    ∃ store2 upd logs2,
      addComment [tDelta] [] (some uMember) "t4" "Halfway done" "c2"
          "2025-01-07T00:00:00.000Z" = .ok (store2, some upd, logs2) ∧
      upd.comments = tDelta.comments
        ++ [{ id := "c2", userId := uMember.id, text := "Halfway done", createdAt := "2025-01-07T00:00:00.000Z", fileURL := none }] ∧
      upd.title = tDelta.title ∧ upd.description = tDelta.description ∧
      upd.assignerId = tDelta.assignerId ∧ upd.assigneeIds = tDelta.assigneeIds ∧
      upd.deadline = tDelta.deadline ∧ upd.progress = tDelta.progress ∧
      upd.status = tDelta.status ∧ upd.createdAt = tDelta.createdAt ∧
      upd.summary = tDelta.summary ∧
      logs2 = [] ++ [mkLog uMember "commented on" upd "2025-01-07T00:00:00.000Z"] ∧
      (∀ x ∈ [tDelta], x.id ≠ "t4" → x ∈ store2) :=
  addComment_frame [tDelta] [] uMember "t4" "Halfway done" "c2"
    "2025-01-07T00:00:00.000Z" tDelta (by decide) (by decide)

end NetNex
